import Mathlib

/-
Verification of the data-preparation and orchestration layer of the
geospatial-feature-ranker repository (src/featureranker/utils.py).

The tabular data model is a shallow embedding of the pandas DataFrame as
used by the source: a table is an ordered sequence of named, dtype-tagged
columns, every column a list of optional cells (a `none` cell is a NaN /
missing entry), plus an explicit row count (the index length).  Rational
numbers stand for the Python numeric results of the percentage and
threshold arithmetic.  External collaborators that the source only
orchestrates (the randomized search engine, the elastic-net fit, the
plotting module) enter as explicit function or coefficient parameters,
exactly at the call boundary the source delegates to.
-/

/-- Cell values occurring in a table: numeric, text, or boolean. -/
inductive Value where
  | int (i : Int)
  | str (s : String)
  | bool (b : Bool)
deriving DecidableEq

/-- Column dtype tag, as pandas tracks it per column: numeric (`int`),
object/string (`str`), plain numpy boolean (`bool`), or the opt-in pandas
nullable `BooleanDtype` (`boolean`).  The distinction matters: the string
comparison `dtype == 'boolean'` in the source is true only for the nullable
dtype (numpy has no dtype named `boolean`, so a numpy bool dtype compares
unequal), while `select_dtypes(include=[..., 'bool'])` matches only the
numpy bool dtype. -/
inductive Dtype where
  | int
  | str
  | bool
  | boolean
deriving DecidableEq

/-- One named column: its label, dtype tag, and cells (a `none` cell is NaN). -/
structure Col where
  name : String
  dtype : Dtype
  cells : List (Option Value)
deriving DecidableEq

/-- A table: the row count of its index together with its columns. -/
structure Table where
  nrows : Nat
  cols : List Col
deriving DecidableEq

/-- Well-formedness: every column has exactly `nrows` cells. -/
def Aligned (df : Table) : Prop :=
  ∀ c ∈ df.cols, c.cells.length = df.nrows

instance (df : Table) : Decidable (Aligned df) :=
  List.decidableBAll _ df.cols

/-- Errors surfaced by the underlying Python libraries. -/
inductive PyErr where
  | keyError (k : String)
  | zeroDivision
  | valueError
deriving DecidableEq

/-- The six characters `str.maketrans` maps to an underscore in
`sanitize_column_names` (the braces written by code point). -/
def targetChars : List Char := ['[', ']', '<', '>', Char.ofNat 123, Char.ofNat 125]

/-- Character translation table of `sanitize_column_names`. -/
def trChar (c : Char) : Char := if targetChars.contains c then '_' else c

/-- Python `str.translate` with the table above: per-character replacement. -/
def trName (s : String) : String := String.mk (s.data.map trChar)

/-- Embedding of `sanitize_column_names` (utils.py lines 72-75): rename every
column through the translation table, leave everything else untouched. -/
def sanitize_column_names (df : Table) : Table :=
  { df with cols := df.cols.map (fun c => { c with name := trName c.name }) }

/-- Number of missing (NaN) cells of a column: `df[column].isna().sum()`. -/
def nanCount (c : Col) : Nat := c.cells.countP (fun o => o.isNone)

/-- Python `round(x, 1)` on the rational model of the percentage. -/
def round1 (q : Rat) : Rat := ((round (q * 10) : Int) : Rat) / 10

/-- Missing percentage of a column, rounded to one decimal place:
`round(nan_count / len(df) * 100, 1)`. -/
def pctOf (n : Nat) (c : Col) : Rat := round1 ((nanCount c : Rat) / (n : Rat) * 100)

/-- One diagnostic line of the missing-value reporter. -/
inductive ReportLine where
  | columnLine (name : String) (pct : Rat)
  | noNaN
deriving DecidableEq

/-- Loop body of `view_data` for one column.  `nan_count` is a numpy `int64`
scalar, so on a zero-row table the division `nan_count / len(df)` does not
raise: it emits a `RuntimeWarning` and yields NaN, `round(nan, 1)` is NaN,
and `NaN > 0` is false, so no line is printed.  Otherwise a line is
produced exactly when the rounded percentage is positive. -/
def colLine (n : Nat) (c : Col) : Except PyErr (Option ReportLine) :=
  if n = 0 then .ok none
  else if 0 < pctOf n c then .ok (some (.columnLine c.name (pctOf n c)))
  else .ok none

/-- The per-column loop of `view_data`, collecting printed lines in column
order and propagating the first failure. -/
def reportLines (n : Nat) : List Col → Except PyErr (List ReportLine)
  | [] => .ok []
  | c :: cs =>
    match colLine n c with
    | .error e => .error e
    | .ok o =>
      match reportLines n cs with
      | .error e => .error e
      | .ok rest => .ok (match o with | some l => l :: rest | none => rest)

/-- Embedding of `view_data` (utils.py lines 78-87): the list of diagnostic
lines it prints, or the arithmetic failure it raises.  When no per-column
line was produced (`count == 0`) the single no-NaN line is printed. -/
def view_data (df : Table) : Except PyErr (List ReportLine) :=
  match reportLines df.nrows df.cols with
  | .error e => .error e
  | .ok ls => .ok (if ls.isEmpty then [ReportLine.noNaN] else ls)

/-- Python lexicographic (code-point) comparison of strings as character
lists: the ordering `np.unique` applies to text values. -/
def strLeL : List Char → List Char → Bool
  | [], _ => true
  | _ :: _, [] => false
  | a :: as, b :: bs =>
    if a.toNat < b.toNat then true
    else if b.toNat < a.toNat then false
    else strLeL as bs

/-- Total order on cell values used by the label encoder's `np.unique` sort:
integers numerically, strings lexicographically, booleans with
`False < True`; well-typed columns only ever compare like constructors. -/
def vle : Value → Value → Bool
  | .int i, .int j => decide (i ≤ j)
  | .int _, .str _ => true
  | .int _, .bool _ => true
  | .str _, .int _ => false
  | .str s, .str t => strLeL s.data t.data
  | .str _, .bool _ => true
  | .bool _, .int _ => false
  | .bool _, .str _ => false
  | .bool a, .bool b => !a || b

/-- The relation form of `vle`, for the sorting lemmas. -/
def Rvle (a b : Value) : Prop := vle a b = true

instance : DecidableRel Rvle := fun a b => inferInstanceAs (Decidable (vle a b = true))

/-- Strict comparison derived from `vle`. -/
def vlt (a b : Value) : Bool := vle a b && !(vle b a)

/-- Index of a value in a class list: `LabelEncoder.transform` of a fitted
value is its position in the sorted array of classes. -/
def idxIn : List Value → Value → Nat
  | [], _ => 0
  | w :: ws, v => if w = v then 0 else idxIn ws v + 1

/-- Sorted distinct classes of a list of values: `np.unique` inside
`LabelEncoder.fit`. -/
def classesOf (vals : List Value) : List Value :=
  List.insertionSort Rvle vals.dedup

/-- Embedding of `le.fit_transform` applied to one column (utils.py lines
100-104): refit the encoder on this column's present values alone and
replace every cell by the integer code of its value. -/
def fitTransformCol (c : Col) : Col :=
  { name := c.name, dtype := Dtype.int,
    cells := c.cells.map (Option.map (fun v =>
      Value.int (idxIn (classesOf c.cells.reduceOption) v))) }

/-- Columns selected by `select_dtypes(include=['object', 'string', 'bool'])`
are encoded; numeric columns pass through, and so do nullable-boolean
columns, whose dtype name `boolean` is not in the include list. -/
def encodeIfNeeded (c : Col) : Col :=
  if c.dtype = Dtype.str ∨ c.dtype = Dtype.bool then fitTransformCol c else c

/-- Python `df[labels]` for a single label name. -/
def findCol (df : Table) (k : String) : Option Col :=
  df.cols.find? (fun c => c.name = k)

/-- The column list handed to `df.drop`: `columns_to_drop + [labels]` when
extra columns were requested, else just the label. -/
def dropList (labels : String) (ctd : Option (List String)) : List String :=
  match ctd with
  | some cs => cs ++ [labels]
  | none => [labels]

/-- Whether `df.drop(columns=names)` succeeds: every requested name must be
present, else pandas raises `KeyError`. -/
def dropColsOk (df : Table) (names : List String) : Bool :=
  names.all (fun n => df.cols.any (fun c => c.name = n))

/-- The feature columns left after `df.drop`. -/
def featureCols (df : Table) (names : List String) : List Col :=
  df.cols.filter (fun c => !(names.contains c.name))

/-- Count of present (non-NaN) cells of a column. -/
def nonMissing (c : Col) : Nat := c.cells.countP (fun o => o.isSome)

/-- The column-retention test of `dropna(axis=1, thresh=thresh * len(df_clean))`:
keep a column when its non-NA count reaches the threshold. -/
def threshKeep (thresh : Rat) (n : Nat) (c : Col) : Bool :=
  decide (thresh * (n : Rat) ≤ (nonMissing c : Rat))

/-- Feature columns surviving both the explicit drop and the missing-value
threshold, in their original order. -/
def survCols (df : Table) (labels : String) (thresh : Rat) (ctd : Option (List String)) : List Col :=
  (featureCols df (dropList labels ctd)).filter (threshKeep thresh df.nrows)

/-- Row indices kept by `combined.dropna()`: those where every listed column
has a present cell. -/
def keptIndices (cols : List Col) (n : Nat) : List Nat :=
  (List.range n).filter (fun i => cols.all (fun c => (c.cells.getD i none).isSome))

/-- The kept row indices of a `get_data` call: `dropna` over the surviving
feature columns together with the label column. -/
def keepOf (df : Table) (labels : String) (thresh : Rat) (ctd : Option (List String)) : List Nat :=
  match findCol df labels with
  | some y0 => keptIndices (survCols df labels thresh ctd ++ [y0]) df.nrows
  | none => []

/-- Restriction of a column to a list of row indices (pandas row selection by
the surviving index). -/
def filterCol (keep : List Nat) (c : Col) : Col :=
  { c with cells := keep.map (fun i => c.cells.getD i none) }

/-- Boolean-to-integer coercion of a single value, `True` to 1, `False` to 0. -/
def boolToIntV : Value → Value
  | .bool b => .int (if b then 1 else 0)
  | v => v

/-- Python `y.astype(int)` on a boolean column. -/
def castBoolInt (c : Col) : Col :=
  { name := c.name, dtype := Dtype.int, cells := c.cells.map (Option.map boolToIntV) }

/-- Embedding of `get_data` (utils.py lines 90-108): extract the label
column, drop the requested columns and the label from the features, drop
feature columns under the missing-value threshold computed over the full
row count, drop every row still missing a value in a surviving feature or
the label (jointly, via the shared kept index), encode non-numeric feature
columns each by a fresh encoder fit, and coerce the label to 0/1 when its
dtype is the pandas nullable boolean dtype: the test `y.dtype == 'boolean'`
holds only for that dtype, a plain numpy bool label compares unequal to the
string `boolean` and passes through uncast. -/
def get_data (df : Table) (labels : String) (thresh : Rat)
    (columns_to_drop : Option (List String)) : Except PyErr (Table × Col) :=
  match findCol df labels with
  | none => .error (.keyError labels)
  | some y0 =>
    if dropColsOk df (dropList labels columns_to_drop) then
      let keep := keptIndices (survCols df labels thresh columns_to_drop ++ [y0]) df.nrows
      let yF := filterCol keep y0
      .ok ({ nrows := keep.length,
             cols := (survCols df labels thresh columns_to_drop).map
               (fun c => encodeIfNeeded (filterCol keep c)) },
           if yF.dtype = Dtype.boolean then castBoolInt yF else yF)
    else .error (.keyError "not found in axis")

/-- One registry entry: the estimator template and the names of its
hyperparameter grid axes (the grid values themselves are configuration
data owned by the numerical library). -/
structure ModelEntry where
  model : String
  params : List String
deriving DecidableEq

/-- Embedding of the process-wide `model_params` registry (utils.py lines
14-69): task type to model family name to entry. -/
def model_params : List (String × List (String × ModelEntry)) :=
  [("classification",
    [("XGBoost",
      { model := "XGBClassifier",
        params := ["max_depth", "min_child_weight", "gamma", "subsample",
                   "colsample_bytree", "learning_rate", "n_estimators",
                   "reg_alpha", "reg_lambda"] }),
     ("RandomForest",
      { model := "RandomForestClassifier",
        params := ["n_estimators", "max_features", "max_depth",
                   "min_samples_split", "min_samples_leaf", "bootstrap"] })]),
   ("regression",
    [("XGBoost",
      { model := "XGBRegressor",
        params := ["max_depth", "min_child_weight", "gamma", "subsample",
                   "colsample_bytree", "learning_rate", "n_estimators",
                   "reg_alpha", "reg_lambda"] }),
     ("RandomForest",
      { model := "RandomForestRegressor",
        params := ["n_estimators", "max_features", "max_depth",
                   "min_samples_split", "min_samples_leaf", "bootstrap"] })])]

/-- Python dictionary subscript: `KeyError` on an absent key. -/
def dictGet {α : Type} (d : List (String × α)) (k : String) : Except PyErr α :=
  match d.find? (fun p => p.1 = k) with
  | some p => .ok p.2
  | none => .error (.keyError k)

/-- The best-parameter mapping returned by a fitted search. -/
def BestParams : Type := List (String × String)

/-- Embedding of `regression_hyper_param_search` (utils.py lines 115-131):
`engine` stands for the external `RandomizedSearchCV` construction, fit and
`best_params_` extraction, invoked only after both registry lookups
succeed. -/
def regression_hyper_param_search
    (engine : ModelEntry → Table → Col → Nat → Nat → BestParams)
    (X : Table) (y : Col) (model_name : String) (cv : Nat) (num_runs : Nat) :
    Except PyErr BestParams :=
  match dictGet model_params "regression" with
  | .error e => .error e
  | .ok reg =>
    match dictGet reg model_name with
    | .error e => .error e
    | .ok mp => .ok (engine mp X y cv num_runs)

/-- Embedding of `classification_hyper_param_search` (utils.py lines
134-150), with the same external-engine boundary. -/
def classification_hyper_param_search
    (engine : ModelEntry → Table → Col → Nat → Nat → BestParams)
    (X : Table) (y : Col) (model_name : String) (cv : Nat) (num_runs : Nat) :
    Except PyErr BestParams :=
  match dictGet model_params "classification" with
  | .error e => .error e
  | .ok cls =>
    match dictGet cls model_name with
    | .error e => .error e
    | .ok mp => .ok (engine mp X y cv num_runs)

/-- Descending-score order on ranking rows. -/
def scoreGe (a b : String × Rat) : Prop := b.2 ≤ a.2

instance : DecidableRel scoreGe := fun a b => inferInstanceAs (Decidable (b.2 ≤ a.2))

instance : IsTotal (String × Rat) scoreGe := ⟨fun a b => le_total b.2 a.2⟩

instance : IsTrans (String × Rat) scoreGe :=
  ⟨fun _ _ _ h1 h2 => le_trans h2 h1⟩

/-- Embedding of `elastic_net_regression_ranking` (utils.py lines 153-167):
`coef_` is the fitted coefficient vector of the external `ElasticNetCV`
collaborator (after the optional standardization, both out of scope); the
function takes absolute values, pairs them with the feature names, and
sorts the table by descending score with the index reset.  The DataFrame
constructor fails when the two column value lists differ in length. -/
def elastic_net_regression_ranking (X : Table) (coef : List Rat) :
    Except PyErr (List (String × Rat)) :=
  let columns := X.cols.map Col.name
  if columns.length = coef.length then
    .ok (List.insertionSort scoreGe (columns.zip (coef.map (fun q => |q|))))
  else .error .valueError

theorem trChar_idem (c : Char) : trChar (trChar c) = trChar c := by
  by_cases h : targetChars.contains c
  · have h1 : trChar c = '_' := by unfold trChar; rw [if_pos h]
    rw [h1]
    decide
  · have h1 : trChar c = c := by unfold trChar; rw [if_neg h]
    rw [h1]
    exact h1

theorem trName_idem (s : String) : trName (trName s) = trName s := by
  have hfe : trChar ∘ trChar = trChar := funext trChar_idem
  simp only [trName, List.map_map, hfe]

/-- C6: the column sanitizer is idempotent; it leaves the row count, every
column's dtype and every cell value untouched, and renames each column by
replacing each occurrence of the characters `[`, `]`, `<`, `>` and the two
braces in its name with an underscore. -/
theorem sanitize_column_names_spec (df : Table) :
    sanitize_column_names (sanitize_column_names df) = sanitize_column_names df ∧
    (sanitize_column_names df).nrows = df.nrows ∧
    (sanitize_column_names df).cols.map Col.cells = df.cols.map Col.cells ∧
    (sanitize_column_names df).cols.map Col.dtype = df.cols.map Col.dtype ∧
    (sanitize_column_names df).cols.map Col.name
      = df.cols.map (fun c => String.mk (c.name.data.map trChar)) := by
  refine ⟨?_, rfl, ?_, ?_, ?_⟩
  · simp only [sanitize_column_names, List.map_map]
    refine congrArg (fun cs => Table.mk df.nrows cs) ?_
    refine List.map_congr_left (fun c _ => ?_)
    simp [Function.comp, trName_idem]
  · simp [sanitize_column_names, List.map_map, Function.comp]
  · simp [sanitize_column_names, List.map_map, Function.comp]
  · simp [sanitize_column_names, List.map_map, Function.comp, trName]

theorem round1_zero : round1 0 = 0 := by
  simp [round1]

theorem colLine_of_nanCount_zero (n : Nat) (c : Col) (hn : n ≠ 0)
    (h : nanCount c = 0) : colLine n c = .ok none := by
  simp [colLine, hn, pctOf, h, round1_zero]

theorem reportLines_all_none (n : Nat) (cs : List Col)
    (h : ∀ c ∈ cs, colLine n c = .ok none) : reportLines n cs = .ok [] := by
  induction cs with
  | nil => rfl
  | cons c cs ih =>
    rw [reportLines, h c (List.mem_cons_self c cs), ih (fun c' hc' => h c' (List.mem_cons_of_mem c hc'))]

theorem mem_reportLines (n : Nat) (cs : List Col) (ls : List ReportLine)
    (h : reportLines n cs = .ok ls) (l : ReportLine) (hl : l ∈ ls) :
    ∃ c ∈ cs, colLine n c = .ok (some l) := by
  induction cs generalizing ls with
  | nil =>
    rw [reportLines] at h
    cases h
    cases hl
  | cons c cs ih =>
    rw [reportLines] at h
    cases heq : colLine n c with
    | error e => rw [heq] at h; cases h
    | ok o =>
      rw [heq] at h
      cases heq2 : reportLines n cs with
      | error e => rw [heq2] at h; cases h
      | ok rest =>
        rw [heq2] at h
        cases h
        cases o with
        | some l0 =>
          rcases List.mem_cons.mp hl with h1 | h2
          · exact ⟨c, List.mem_cons_self c cs, h1 ▸ heq⟩
          · obtain ⟨c', hc', hcl⟩ := ih rest heq2 h2
            exact ⟨c', List.mem_cons_of_mem c hc', hcl⟩
        | none =>
          obtain ⟨c', hc', hcl⟩ := ih rest heq2 hl
          exact ⟨c', List.mem_cons_of_mem c hc', hcl⟩

theorem colLine_ok_some (n : Nat) (c : Col) (l : ReportLine)
    (h : colLine n c = .ok (some l)) :
    0 < pctOf n c ∧ l = ReportLine.columnLine c.name (pctOf n c) := by
  unfold colLine at h
  by_cases hn : n = 0
  · rw [if_pos hn] at h; simp at h
  · rw [if_neg hn] at h
    by_cases hp : 0 < pctOf n c
    · rw [if_pos hp] at h
      cases h
      exact ⟨hp, rfl⟩
    · rw [if_neg hp] at h; cases h

/-- C7: on a table with at least one row and no missing value in any column,
`view_data` emits exactly the single no-NaN diagnostic line; and in general
every per-column line it emits belongs to a column whose rounded missing
percentage is positive. -/
theorem view_data_no_missing (df : Table) (hn : 0 < df.nrows) :
    ((∀ c ∈ df.cols, nanCount c = 0) → view_data df = .ok [ReportLine.noNaN]) ∧
    (∀ ls, view_data df = .ok ls → ∀ l ∈ ls,
      l = ReportLine.noNaN ∨
      ∃ c ∈ df.cols, 0 < pctOf df.nrows c ∧
        l = ReportLine.columnLine c.name (pctOf df.nrows c)) := by
  constructor
  · intro h
    have hz : reportLines df.nrows df.cols = .ok [] :=
      reportLines_all_none _ _ (fun c hc =>
        colLine_of_nanCount_zero _ _ (Nat.pos_iff_ne_zero.mp hn) (h c hc))
    simp [view_data, hz]
  · intro ls hls l hl
    unfold view_data at hls
    cases heq : reportLines df.nrows df.cols with
    | error e => rw [heq] at hls; cases hls
    | ok ls0 =>
      rw [heq] at hls
      cases hls
      by_cases he : ls0.isEmpty
      · rw [if_pos he] at hl
        rcases List.mem_singleton.mp hl with h1
        exact Or.inl h1
      · rw [if_neg he] at hl
        obtain ⟨c, hc, hcl⟩ := mem_reportLines _ _ _ heq l hl
        obtain ⟨hp, hle⟩ := colLine_ok_some _ _ _ hcl
        exact Or.inr ⟨c, hc, hp, hle⟩

/-- Concrete two-row table with no missing values, for the C7 witness. -/
def exDf7 : Table :=
  { nrows := 2, cols := [{ name := "A", dtype := Dtype.int,
                           cells := [some (Value.int 1), some (Value.int 2)] }] }

/-- Witness for C7 at a concrete no-missing-values table. -/
theorem view_data_no_missing_w : view_data exDf7 = .ok [ReportLine.noNaN] :=
  (view_data_no_missing exDf7 (by decide)).1 (by decide)

/-- C8 as amended: a zero-row table does not make `view_data` fail.  The
per-column `nan_count` is a numpy `int64` scalar, whose division by zero
warns and yields NaN rather than raising `ZeroDivisionError`; the NaN
percentage fails the `> 0` test for every column, so the reporter completes
normally and prints the single no-NaN diagnostic. -/
theorem view_data_zero_rows (df : Table) (hn : df.nrows = 0) :
    view_data df = .ok [ReportLine.noNaN] := by
  have hz : reportLines df.nrows df.cols = .ok [] :=
    reportLines_all_none _ _ (fun c _ => by simp [colLine, hn])
  simp [view_data, hz]

/-- Concrete zero-row, one-column table for C8. -/
def exDf8 : Table := { nrows := 0, cols := [{ name := "A", dtype := Dtype.int, cells := [] }] }

/-- Counterexample to C8 as stated: on a concrete zero-row, one-column
table `view_data` completes normally with the no-NaN line and does not
raise the division-by-zero failure the claim asserts. -/
theorem view_data_zero_rows_cex :
    view_data exDf8 = .ok [ReportLine.noNaN] ∧
    view_data exDf8 ≠ .error PyErr.zeroDivision :=
  ⟨rfl, fun h => Except.noConfusion h⟩

/-- Witness for the amended C8 at the concrete zero-row table. -/
theorem view_data_zero_rows_w : view_data exDf8 = .ok [ReportLine.noNaN] :=
  view_data_zero_rows exDf8 rfl

/-- C9: whenever every column's missing percentage rounds to zero at one
decimal place, `view_data` prints no per-column line and emits the no-NaN
diagnostic, because the test is on the rounded percentage. -/
theorem view_data_rounded_zero (df : Table) (hn : 0 < df.nrows)
    (h : ∀ c ∈ df.cols, pctOf df.nrows c ≤ 0) :
    view_data df = .ok [ReportLine.noNaN] := by
  have hz : reportLines df.nrows df.cols = .ok [] :=
    reportLines_all_none _ _ (fun c hc => by
      rw [colLine, if_neg (Nat.pos_iff_ne_zero.mp hn), if_neg (not_lt.mpr (h c hc))])
  simp [view_data, hz]

/-- Concrete table with 2001 rows and a single missing entry, whose missing
percentage (100/2001, about 0.04998) rounds to 0.0. -/
def exDf9 : Table :=
  { nrows := 2001,
    cols := [{ name := "A", dtype := Dtype.int,
               cells := List.replicate 2000 (some (Value.int 0)) ++ [none] }] }

set_option maxRecDepth 100000 in
/-- Witness for C9: the table does contain a missing value, yet `view_data`
reports that there are none. -/
theorem view_data_rounded_zero_w :
    (∃ c ∈ exDf9.cols, 0 < nanCount c) ∧ view_data exDf9 = .ok [ReportLine.noNaN] :=
  ⟨by decide, view_data_rounded_zero exDf9 (by decide) (by with_unfolding_all decide)⟩

/-- C4: a model name absent from the registry makes both hyperparameter
search orchestrators fail immediately with the key-not-found error, for
every search engine and every input, rather than returning normally. -/
theorem hyper_param_search_unknown_model
    (model_name : String) (h1 : model_name ≠ "XGBoost") (h2 : model_name ≠ "RandomForest")
    (engineR engineC : ModelEntry → Table → Col → Nat → Nat → BestParams)
    (X : Table) (y : Col) (cv num_runs : Nat) :
    regression_hyper_param_search engineR X y model_name cv num_runs
      = .error (.keyError model_name) ∧
    classification_hyper_param_search engineC X y model_name cv num_runs
      = .error (.keyError model_name) := by
  constructor
  · simp [regression_hyper_param_search, dictGet, model_params, List.find?,
      Ne.symm h1, Ne.symm h2]
  · simp [classification_hyper_param_search, dictGet, model_params, List.find?,
      Ne.symm h1, Ne.symm h2]

/-- Witness for C4 at the unregistered model name `SVM`. -/
theorem hyper_param_search_unknown_model_w :
    regression_hyper_param_search (fun _ _ _ _ _ => []) { nrows := 0, cols := [] }
      { name := "y", dtype := Dtype.int, cells := [] } "SVM" 3 5
      = .error (.keyError "SVM") ∧
    classification_hyper_param_search (fun _ _ _ _ _ => []) { nrows := 0, cols := [] }
      { name := "y", dtype := Dtype.int, cells := [] } "SVM" 3 5
      = .error (.keyError "SVM") :=
  hyper_param_search_unknown_model "SVM" (by decide) (by decide) _ _ _ _ 3 5

/-- C5: every successful elastic-net ranking is sorted by descending score
(adjacent rows satisfy `r_i.score >= r_(i+1).score`) and, the index being
reset, has exactly one row per feature column. -/
theorem elastic_net_ranking_sorted (X : Table) (coef : List Rat)
    (ls : List (String × Rat))
    (h : elastic_net_regression_ranking X coef = .ok ls) :
    ls.Chain' scoreGe ∧ ls.length = X.cols.length := by
  unfold elastic_net_regression_ranking at h
  by_cases hlen : (X.cols.map Col.name).length = coef.length
  · rw [if_pos hlen] at h
    cases h
    constructor
    · exact List.Pairwise.chain'
        (List.sorted_insertionSort scoreGe ((X.cols.map Col.name).zip (coef.map (fun q => |q|))))
    · have hx := hlen
      simp only [List.length_map] at hx
      simp only [List.length_insertionSort, List.length_zip, List.length_map]
      omega
  · rw [if_neg hlen] at h
    cases h

/-- Concrete two-feature table for the C5 witness. -/
def exDf5 : Table :=
  { nrows := 0,
    cols := [{ name := "a", dtype := Dtype.int, cells := [] },
             { name := "b", dtype := Dtype.int, cells := [] }] }

/-- Witness for C5 at concrete coefficients `[1/2, -3]`, whose ranking sorts
to scores `[3, 1/2]`. -/
theorem elastic_net_ranking_sorted_w :
    List.Chain' scoreGe [("b", (3 : Rat)), ("a", (1/2 : Rat))] ∧
    ([("b", (3 : Rat)), ("a", (1/2 : Rat))] : List (String × Rat)).length = exDf5.cols.length :=
  elastic_net_ranking_sorted exDf5 [1/2, -3] _ (by with_unfolding_all rfl)

theorem get_data_ok_iff (df : Table) (labels : String) (thresh : Rat)
    (ctd : Option (List String)) (X : Table) (y : Col) :
    get_data df labels thresh ctd = .ok (X, y) ↔
    ∃ y0, findCol df labels = some y0 ∧
      dropColsOk df (dropList labels ctd) = true ∧
      X = { nrows := (keepOf df labels thresh ctd).length,
            cols := (survCols df labels thresh ctd).map
              (fun c => encodeIfNeeded (filterCol (keepOf df labels thresh ctd) c)) } ∧
      y = (if (filterCol (keepOf df labels thresh ctd) y0).dtype = Dtype.boolean
           then castBoolInt (filterCol (keepOf df labels thresh ctd) y0)
           else filterCol (keepOf df labels thresh ctd) y0) := by
  constructor
  · intro h
    unfold get_data at h
    split at h
    · cases h
    · next y0 hf =>
      split at h
      · next hd =>
        simp only [Except.ok.injEq, Prod.mk.injEq] at h
        obtain ⟨hX, hY⟩ := h
        refine ⟨y0, hf, hd, ?_, ?_⟩
        · rw [← hX]
          simp only [keepOf, hf]
        · rw [← hY]
          simp only [keepOf, hf]
      · cases h
  · rintro ⟨y0, hf, hd, hX, hY⟩
    subst hX
    subst hY
    simp only [get_data, hf, hd, if_true, keepOf]

theorem findCol_mem {df : Table} {k : String} {c : Col}
    (h : findCol df k = some c) : c ∈ df.cols := by
  unfold findCol at h
  exact List.mem_of_find?_eq_some h

theorem findCol_name {df : Table} {k : String} {c : Col}
    (h : findCol df k = some c) : c.name = k := by
  unfold findCol at h
  have hp := List.find?_some h
  simpa using hp

theorem survCols_sub {df : Table} {labels : String} {thresh : Rat}
    {ctd : Option (List String)} {c : Col}
    (h : c ∈ survCols df labels thresh ctd) : c ∈ df.cols :=
  List.mem_of_mem_filter (List.mem_of_mem_filter h)

theorem encodeIfNeeded_name (c : Col) : (encodeIfNeeded c).name = c.name := by
  unfold encodeIfNeeded
  split
  · rfl
  · rfl

theorem encodeIfNeeded_length (c : Col) :
    (encodeIfNeeded c).cells.length = c.cells.length := by
  unfold encodeIfNeeded
  split
  · exact List.length_map _ _
  · rfl

theorem keptIndices_pairwise (cols : List Col) (n : Nat) :
    (keptIndices cols n).Pairwise (· < ·) :=
  (List.pairwise_lt_range n).sublist (List.filter_sublist _)

theorem keptIndices_lt (cols : List Col) (n : Nat) (i : Nat)
    (h : i ∈ keptIndices cols n) : i < n :=
  List.mem_range.mp (List.mem_of_mem_filter h)

theorem keptIndices_isSome {cols : List Col} {n : Nat} {i : Nat}
    (h : i ∈ keptIndices cols n) {c : Col} (hc : c ∈ cols) :
    (c.cells.getD i none).isSome = true := by
  have := List.of_mem_filter h
  exact List.all_eq_true.mp this c hc

/-- C1: whenever `get_data` succeeds, `X` and `y` have the same number of
rows, and there is a single strictly increasing list of surviving input row
indices through which every column of `X` and the label column `y` were
jointly produced: row `i` of `X` and row `i` of `y` both come from the same
input row. -/
theorem get_data_row_alignment
    (df : Table) (labels : String) (thresh : Rat) (ctd : Option (List String))
    (X : Table) (y : Col)
    (h : get_data df labels thresh ctd = Except.ok (X, y)) :
    (X.nrows = y.cells.length ∧ ∀ c ∈ X.cols, c.cells.length = y.cells.length) ∧
    ∃ idx : List Nat,
      idx.Pairwise (· < ·) ∧
      (∀ i ∈ idx, i < df.nrows) ∧
      idx.length = y.cells.length ∧
      (∃ c0 ∈ df.cols, c0.name = labels ∧ ∃ g : Option Value → Option Value,
        y.cells = (idx.map (fun i => c0.cells.getD i none)).map g) ∧
      (∀ c ∈ X.cols, ∃ c0 ∈ df.cols, c.name = c0.name ∧
        ∃ g : Option Value → Option Value,
          c.cells = (idx.map (fun i => c0.cells.getD i none)).map g) := by
  obtain ⟨y0, hf, hd, hX, hY⟩ := (get_data_ok_iff df labels thresh ctd X y).mp h
  have hkeep : keepOf df labels thresh ctd
      = keptIndices (survCols df labels thresh ctd ++ [y0]) df.nrows := by
    simp only [keepOf, hf]
  have hylen : y.cells.length = (keepOf df labels thresh ctd).length := by
    subst hY
    split
    · simp [castBoolInt, filterCol]
    · simp [filterCol]
  constructor
  · constructor
    · rw [hX, hylen]
    · intro c hc
      rw [hX] at hc
      obtain ⟨c1, _, hc1⟩ := List.mem_map.mp hc
      rw [← hc1, encodeIfNeeded_length, hylen]
      simp [filterCol]
  · refine ⟨keepOf df labels thresh ctd, ?_, ?_, hylen.symm, ?_, ?_⟩
    · rw [hkeep]
      exact keptIndices_pairwise _ _
    · intro i hi
      rw [hkeep] at hi
      exact keptIndices_lt _ _ _ hi
    · refine ⟨y0, findCol_mem hf, findCol_name hf, ?_⟩
      subst hY
      split
      · exact ⟨Option.map boolToIntV, by simp [castBoolInt, filterCol, List.map_map]⟩
      · exact ⟨id, by simp [filterCol]⟩
    · intro c hc
      rw [hX] at hc
      obtain ⟨c1, hc1m, hc1⟩ := List.mem_map.mp hc
      refine ⟨c1, survCols_sub hc1m, ?_, ?_⟩
      · rw [← hc1, encodeIfNeeded_name]
        rfl
      · rw [← hc1]
        unfold encodeIfNeeded
        split
        · exact ⟨Option.map (fun v => Value.int
            (idxIn (classesOf (filterCol (keepOf df labels thresh ctd) c1).cells.reduceOption) v)),
            by simp [fitTransformCol, filterCol, List.map_map]⟩
        · exact ⟨id, by simp [filterCol]⟩

/-- Concrete one-row table for the C1 witness. -/
def exDf1 : Table :=
  { nrows := 1,
    cols := [{ name := "f", dtype := Dtype.int, cells := [some (Value.int 5)] },
             { name := "L", dtype := Dtype.int, cells := [some (Value.int 7)] }] }

/-- The feature table `get_data` produces from `exDf1`. -/
def exX1 : Table :=
  { nrows := 1, cols := [{ name := "f", dtype := Dtype.int, cells := [some (Value.int 5)] }] }

/-- The label column `get_data` produces from `exDf1`. -/
def exY1 : Col := { name := "L", dtype := Dtype.int, cells := [some (Value.int 7)] }

/-- Witness for C1 at a concrete successful call. -/
theorem get_data_row_alignment_w :
    exX1.nrows = exY1.cells.length ∧ ∀ c ∈ exX1.cols, c.cells.length = exY1.cells.length :=
  (get_data_row_alignment exDf1 "L" (4/5) none exX1 exY1 (by with_unfolding_all rfl)).1

/-- C2: on success the surviving feature columns of `X` are exactly those
whose non-missing count over the full input row count reaches
`thresh * row_count` (so the column-drop threshold is evaluated before any
row is dropped), and the number of surviving rows is computed from the
surviving feature columns and the label only, so the missingness of a
dropped column never causes a row to be dropped. -/
theorem get_data_threshold_before_rows
    (df : Table) (labels : String) (thresh : Rat) (ctd : Option (List String))
    (X : Table) (y : Col)
    (hnd : (df.cols.map Col.name).Nodup)
    (h : get_data df labels thresh ctd = Except.ok (X, y)) :
    (∀ c ∈ df.cols, ((dropList labels ctd).contains c.name) = false →
      (c.name ∈ X.cols.map Col.name ↔ thresh * (df.nrows : Rat) ≤ (nonMissing c : Rat))) ∧
    ∃ c0, findCol df labels = some c0 ∧
      X.nrows = (keptIndices (survCols df labels thresh ctd ++ [c0]) df.nrows).length := by
  obtain ⟨y0, hf, hd, hX, hY⟩ := (get_data_ok_iff df labels thresh ctd X y).mp h
  have hnames : X.cols.map Col.name = (survCols df labels thresh ctd).map Col.name := by
    rw [hX]
    simp only [List.map_map]
    exact List.map_congr_left (fun c _ => encodeIfNeeded_name _)
  constructor
  · intro c hc hdrop
    rw [hnames]
    constructor
    · intro hmem
      obtain ⟨c', hc'm, hc'name⟩ := List.mem_map.mp hmem
      have hc'df : c' ∈ df.cols := survCols_sub hc'm
      have hceq : c' = c :=
        List.inj_on_of_nodup_map hnd hc'df hc hc'name
      have hth := List.of_mem_filter hc'm
      rw [hceq] at hth
      exact of_decide_eq_true hth
    · intro hth
      refine List.mem_map.mpr ⟨c, ?_, rfl⟩
      refine List.mem_filter.mpr ⟨?_, decide_eq_true hth⟩
      refine List.mem_filter.mpr ⟨hc, ?_⟩
      rw [hdrop]
      rfl
  · refine ⟨y0, hf, ?_⟩
    rw [hX]
    simp only [keepOf, hf]

/-- Column `A` of the C2 example table: 2 of 10 entries missing. -/
def exA : Col :=
  { name := "A", dtype := Dtype.int,
    cells := [some (Value.int 0), some (Value.int 1), some (Value.int 2),
              some (Value.int 3), some (Value.int 4), some (Value.int 5),
              some (Value.int 6), some (Value.int 7), none, none] }

/-- Column `B` of the C2 example table: 9 of 10 entries missing. -/
def exB : Col :=
  { name := "B", dtype := Dtype.int,
    cells := [some (Value.int 0), none, none, none, none, none, none, none, none, none] }

/-- Label column of the C2 example table: fully present. -/
def exL : Col :=
  { name := "L", dtype := Dtype.int,
    cells := [some (Value.int 100), some (Value.int 101), some (Value.int 102),
              some (Value.int 103), some (Value.int 104), some (Value.int 105),
              some (Value.int 106), some (Value.int 107), some (Value.int 108),
              some (Value.int 109)] }

/-- The C2 example: `A` 20 percent missing, `B` 90 percent missing, label
fully present, `thresh = 0.8`. -/
def exDf2 : Table := { nrows := 10, cols := [exA, exB, exL] }

/-- The feature table `get_data` produces from `exDf2`: only column `A`,
with the two rows missing `A` dropped and no missing values left. -/
def exX2 : Table :=
  { nrows := 8,
    cols := [{ name := "A", dtype := Dtype.int,
               cells := [some (Value.int 0), some (Value.int 1), some (Value.int 2),
                         some (Value.int 3), some (Value.int 4), some (Value.int 5),
                         some (Value.int 6), some (Value.int 7)] }] }

/-- The label column `get_data` produces from `exDf2`. -/
def exY2 : Col :=
  { name := "L", dtype := Dtype.int,
    cells := [some (Value.int 100), some (Value.int 101), some (Value.int 102),
              some (Value.int 103), some (Value.int 104), some (Value.int 105),
              some (Value.int 106), some (Value.int 107)] }

/-- Witness for C2: on the example table, `X` keeps exactly column `A`,
drops the two rows with missing `A`, retains no missing value, and the
column-retention test instantiated at `B` shows `B` was removed because its
non-missing count is below the threshold. -/
theorem get_data_threshold_before_rows_w :
    (exX2.cols.map Col.name = ["A"] ∧ exX2.nrows = 8 ∧
      exX2.cols.all (fun c => c.cells.all (fun o => o.isSome)) = true) ∧
    ("B" ∈ exX2.cols.map Col.name ↔ (4/5 : Rat) * (exDf2.nrows : Rat) ≤ (nonMissing exB : Rat)) :=
  ⟨by decide,
   (get_data_threshold_before_rows exDf2 "L" (4/5) none exX2 exY2 (by decide)
     (by with_unfolding_all rfl)).1 exB (by decide) (by decide)⟩

theorem getD_some_mem {l : List (Option Value)} {i : Nat} {v : Value}
    (h : l.getD i none = some v) : some v ∈ l := by
  by_cases hi : i < l.length
  · rw [List.getD_eq_getElem l none hi] at h
    rw [← h]
    exact List.getElem_mem hi
  · rw [List.getD_eq_default l none (Nat.le_of_not_lt hi)] at h
    cases h

/-- C3 as amended: when the label column's dtype is the pandas nullable
boolean dtype (the only dtype for which `y.dtype == 'boolean'` holds), the
`y` returned by a successful `get_data` call has integer dtype, each of its
cells is the 0/1 image of the label cell at the corresponding kept input
row, and (for a well-typed boolean column) every returned label value is
the integer 0 or 1.  A plain numpy bool label is not cast (see the
counterexample). -/
theorem get_data_bool_label_cast
    (df : Table) (labels : String) (thresh : Rat) (ctd : Option (List String))
    (X : Table) (y : Col) (c0 : Col)
    (hf : findCol df labels = some c0) (hb : c0.dtype = Dtype.boolean)
    (h : get_data df labels thresh ctd = Except.ok (X, y)) :
    y.dtype = Dtype.int ∧
    y.cells = (keepOf df labels thresh ctd).map
      (fun i => Option.map boolToIntV (c0.cells.getD i none)) ∧
    ((∀ o ∈ c0.cells, ∀ v, o = some v → ∃ b, v = Value.bool b) →
      ∀ o ∈ y.cells, o = some (Value.int 0) ∨ o = some (Value.int 1)) := by
  obtain ⟨y0, hf', hd, hX, hY⟩ := (get_data_ok_iff df labels thresh ctd X y).mp h
  rw [hf] at hf'
  injection hf' with hy0
  subst hy0
  have hdt : (filterCol (keepOf df labels thresh ctd) c0).dtype = Dtype.boolean := hb
  rw [if_pos hdt] at hY
  subst hY
  refine ⟨rfl, ?_, ?_⟩
  · simp [castBoolInt, filterCol, List.map_map]
  · intro htyped o ho
    simp only [castBoolInt, filterCol, List.map_map, List.mem_map] at ho
    obtain ⟨i, hi, hcell⟩ := ho
    simp only [Function.comp] at hcell
    have hks : (c0.cells.getD i none).isSome = true := by
      have hkeep : keepOf df labels thresh ctd
          = keptIndices (survCols df labels thresh ctd ++ [c0]) df.nrows := by
        simp only [keepOf, hf]
      rw [hkeep] at hi
      exact keptIndices_isSome hi (List.mem_append_right _ (List.mem_singleton.mpr rfl))
    obtain ⟨v, hv⟩ := Option.isSome_iff_exists.mp hks
    obtain ⟨b, hbv⟩ := htyped (some v) (getD_some_mem hv) v rfl
    rw [hv, hbv] at hcell
    cases b with
    | false =>
      left
      rw [← hcell]
      rfl
    | true =>
      right
      rw [← hcell]
      rfl

/-- The C3 counterexample table: integer feature, plain numpy-bool label
`[True, False, True]`. -/
def exDf3 : Table :=
  { nrows := 3,
    cols := [{ name := "f", dtype := Dtype.int,
               cells := [some (Value.int 1), some (Value.int 2), some (Value.int 3)] },
             { name := "L", dtype := Dtype.bool,
               cells := [some (Value.bool true), some (Value.bool false), some (Value.bool true)] }] }

/-- The plain numpy-bool label column of `exDf3`. -/
def exLbool : Col :=
  { name := "L", dtype := Dtype.bool,
    cells := [some (Value.bool true), some (Value.bool false), some (Value.bool true)] }

/-- The feature table `get_data` produces from `exDf3` and `exDf3n`. -/
def exX3 : Table :=
  { nrows := 3,
    cols := [{ name := "f", dtype := Dtype.int,
               cells := [some (Value.int 1), some (Value.int 2), some (Value.int 3)] }] }

/-- Counterexample to C3 as stated: a label column holding the boolean
values `[True, False, True]` under the plain numpy bool dtype is returned
by `get_data` unchanged, still boolean-valued and not integer-dtyped,
because `y.dtype == 'boolean'` is false for the numpy bool dtype. -/
theorem get_data_bool_label_cast_cex :
    get_data exDf3 "L" (4/5) none = .ok (exX3, exLbool) ∧
    exLbool.cells = [some (Value.bool true), some (Value.bool false), some (Value.bool true)] ∧
    exLbool.dtype ≠ Dtype.int :=
  ⟨by with_unfolding_all rfl, rfl, by decide⟩

/-- The C3 witness table: integer feature, nullable-boolean label
`[True, False, True]`. -/
def exDf3n : Table :=
  { nrows := 3,
    cols := [{ name := "f", dtype := Dtype.int,
               cells := [some (Value.int 1), some (Value.int 2), some (Value.int 3)] },
             { name := "L", dtype := Dtype.boolean,
               cells := [some (Value.bool true), some (Value.bool false), some (Value.bool true)] }] }

/-- The nullable-boolean label column of `exDf3n`. -/
def exLboolN : Col :=
  { name := "L", dtype := Dtype.boolean,
    cells := [some (Value.bool true), some (Value.bool false), some (Value.bool true)] }

/-- The label column `get_data` produces from `exDf3n`: integers `[1, 0, 1]`. -/
def exY3 : Col :=
  { name := "L", dtype := Dtype.int,
    cells := [some (Value.int 1), some (Value.int 0), some (Value.int 1)] }

/-- Witness for the amended C3: the nullable-boolean label
`[True, False, True]` comes back as the integer column `[1, 0, 1]`. -/
theorem get_data_bool_label_cast_w :
    exY3.cells = [some (Value.int 1), some (Value.int 0), some (Value.int 1)] ∧
    exY3.dtype = Dtype.int :=
  ⟨rfl, (get_data_bool_label_cast exDf3n "L" (4/5) none exX3 exY3 exLboolN
    (by with_unfolding_all rfl) rfl (by with_unfolding_all rfl)).1⟩

theorem charToNat_inj {a b : Char} (h : a.toNat = b.toNat) : a = b := by
  have h2 := congrArg Char.ofNat h
  rwa [Char.ofNat_toNat, Char.ofNat_toNat] at h2

theorem strLeL_refl (s : List Char) : strLeL s s = true := by
  induction s with
  | nil => rfl
  | cons a as ih => simp [strLeL, ih]

theorem strLeL_cons_iff {a b : Char} {as bs : List Char} :
    strLeL (a :: as) (b :: bs) = true ↔
    (a.toNat < b.toNat ∨ (a.toNat = b.toNat ∧ strLeL as bs = true)) := by
  by_cases h1 : a.toNat < b.toNat
  · simp [strLeL, h1]
  · by_cases h2 : b.toNat < a.toNat
    · simp [strLeL, h1, h2]
      omega
    · have h3 : a.toNat = b.toNat := by omega
      simp [strLeL, h1, h2, h3]

theorem strLeL_total (s t : List Char) : strLeL s t = true ∨ strLeL t s = true := by
  induction s generalizing t with
  | nil => left; rfl
  | cons a as ih =>
    cases t with
    | nil => right; rfl
    | cons b bs =>
      rcases Nat.lt_trichotomy a.toNat b.toNat with hlt | heq | hgt
      · left
        exact strLeL_cons_iff.mpr (Or.inl hlt)
      · rcases ih bs with h | h
        · left
          exact strLeL_cons_iff.mpr (Or.inr ⟨heq, h⟩)
        · right
          exact strLeL_cons_iff.mpr (Or.inr ⟨heq.symm, h⟩)
      · right
        exact strLeL_cons_iff.mpr (Or.inl hgt)

theorem strLeL_trans {s t u : List Char} (h1 : strLeL s t = true)
    (h2 : strLeL t u = true) : strLeL s u = true := by
  induction s generalizing t u with
  | nil => rfl
  | cons a as ih =>
    cases t with
    | nil => simp [strLeL] at h1
    | cons b bs =>
      cases u with
      | nil => simp [strLeL] at h2
      | cons c cs =>
        rw [strLeL_cons_iff] at h1 h2 ⊢
        rcases h1 with h1 | ⟨he1, hs1⟩
        · rcases h2 with h2 | ⟨he2, hs2⟩
          · exact Or.inl (by omega)
          · exact Or.inl (by omega)
        · rcases h2 with h2 | ⟨he2, hs2⟩
          · exact Or.inl (by omega)
          · exact Or.inr ⟨by omega, ih hs1 hs2⟩

theorem strLeL_antisymm {s t : List Char} (h1 : strLeL s t = true)
    (h2 : strLeL t s = true) : s = t := by
  induction s generalizing t with
  | nil =>
    cases t with
    | nil => rfl
    | cons b bs => simp [strLeL] at h2
  | cons a as ih =>
    cases t with
    | nil => simp [strLeL] at h1
    | cons b bs =>
      rw [strLeL_cons_iff] at h1 h2
      rcases h1 with h1 | ⟨he1, hs1⟩
      · rcases h2 with h2 | ⟨he2, hs2⟩
        · omega
        · omega
      · rcases h2 with h2 | ⟨he2, hs2⟩
        · omega
        · rw [charToNat_inj he1, ih hs1 hs2]

theorem vle_refl (v : Value) : vle v v = true := by
  cases v with
  | int i => simp [vle]
  | str s => simp [vle, strLeL_refl]
  | bool b => cases b <;> rfl

theorem vle_total (a b : Value) : vle a b = true ∨ vle b a = true := by
  cases a with
  | int i =>
    cases b with
    | int j =>
      simp only [vle, decide_eq_true_eq]
      omega
    | str s => left; rfl
    | bool c => left; rfl
  | str s =>
    cases b with
    | int j => right; rfl
    | str t =>
      simp only [vle]
      exact strLeL_total s.data t.data
    | bool c => left; rfl
  | bool c =>
    cases b with
    | int j => right; rfl
    | str t => right; rfl
    | bool d => cases c <;> cases d <;> simp [vle]

theorem vle_trans {a b c : Value} (h1 : vle a b = true) (h2 : vle b c = true) :
    vle a c = true := by
  cases a with
  | int i =>
    cases c with
    | int k =>
      cases b with
      | int j =>
        simp only [vle, decide_eq_true_eq] at h1 h2 ⊢
        omega
      | str s => simp [vle] at h2
      | bool bb => simp [vle] at h2
    | str s => rfl
    | bool bb => rfl
  | str s =>
    cases b with
    | int j => simp [vle] at h1
    | str t =>
      cases c with
      | int k => simp [vle] at h2
      | str u =>
        simp only [vle] at h1 h2 ⊢
        exact strLeL_trans h1 h2
      | bool bb => rfl
    | bool bb =>
      cases c with
      | int k => simp [vle] at h2
      | str u => simp [vle] at h2
      | bool bc => rfl
  | bool bb =>
    cases b with
    | int j => simp [vle] at h1
    | str t => simp [vle] at h1
    | bool bc =>
      cases c with
      | int k => simp [vle] at h2
      | str u => simp [vle] at h2
      | bool bd =>
        revert h1 h2
        cases bb <;> cases bc <;> cases bd <;> decide

theorem vle_antisymm {a b : Value} (h1 : vle a b = true) (h2 : vle b a = true) :
    a = b := by
  cases a with
  | int i =>
    cases b with
    | int j =>
      simp only [vle, decide_eq_true_eq] at h1 h2
      exact congrArg Value.int (le_antisymm h1 h2)
    | str s => simp [vle] at h2
    | bool c => simp [vle] at h2
  | str s =>
    cases b with
    | int j => simp [vle] at h1
    | str t =>
      simp only [vle] at h1 h2
      have hdata : s.data = t.data := strLeL_antisymm h1 h2
      cases s
      cases t
      exact congrArg (fun d => Value.str (String.mk d)) hdata
    | bool c => simp [vle] at h2
  | bool c =>
    cases b with
    | int j => simp [vle] at h1
    | str t => simp [vle] at h1
    | bool d => revert h1 h2; cases c <;> cases d <;> decide

instance : IsTotal Value Rvle := ⟨vle_total⟩

instance : IsTrans Value Rvle := ⟨fun _ _ _ => vle_trans⟩

theorem idxIn_sorted (l : List Value) (hs : l.Sorted Rvle) (hn : l.Nodup) :
    ∀ v ∈ l, idxIn l v = l.countP (fun w => vlt w v) := by
  induction l with
  | nil => intro v hv; cases hv
  | cons h t ih =>
    intro v hv
    have hrel : ∀ w ∈ t, Rvle h w := (List.pairwise_cons.mp hs).1
    have hst : t.Sorted Rvle := (List.pairwise_cons.mp hs).2
    have hnd := List.nodup_cons.mp hn
    by_cases hvh : h = v
    · subst hvh
      rw [idxIn, if_pos rfl, List.countP_cons]
      have h0 : vlt h h = false := by simp [vlt]
      have hz : t.countP (fun w => vlt w h) = 0 := by
        refine List.countP_eq_zero.mpr (fun w hw => ?_)
        have hhw : vle h w = true := hrel w hw
        simp [vlt, hhw]
      simp [h0, hz]
    · have hvt : v ∈ t := by
        rcases List.mem_cons.mp hv with h1 | h2
        · exact absurd h1.symm hvh
        · exact h2
      rw [idxIn, if_neg hvh, List.countP_cons]
      have hlt : vlt h v = true := by
        have ha : vle h v = true := hrel v hvt
        have hb : vle v h = false := by
          cases hb : vle v h
          · rfl
          · exact absurd (vle_antisymm hb ha) (fun he => hvh he.symm)
        simp [vlt, ha, hb]
      rw [ih hst hnd.2 v hvt]
      simp [hlt]

theorem idxIn_classesOf (vals : List Value) (v : Value) (hv : v ∈ vals) :
    idxIn (classesOf vals) v = vals.dedup.countP (fun w => vlt w v) := by
  have hperm : List.Perm (classesOf vals) vals.dedup := List.perm_insertionSort Rvle vals.dedup
  have hsorted : (classesOf vals).Sorted Rvle := List.sorted_insertionSort Rvle vals.dedup
  have hnodup : (classesOf vals).Nodup := hperm.nodup_iff.mpr (List.nodup_dedup vals)
  have hmem : v ∈ classesOf vals := hperm.mem_iff.mpr (List.mem_dedup.mpr hv)
  rw [idxIn_sorted _ hsorted hnodup v hmem]
  exact hperm.countP_eq _

/-- C10: every feature column of a successful `get_data` result arises from
one surviving input column through the shared row filter followed by the
per-column encoder; and when that column is non-numeric (text or boolean
dtype), its returned cells are integer codes equal to the rank of each
value among the sorted distinct values of that column alone: the code of a
value is the number of distinct values of the same column strictly below
it, so the encoding of a column never depends on any other column. -/
theorem get_data_label_encoding
    (df : Table) (labels : String) (thresh : Rat) (ctd : Option (List String))
    (X : Table) (y : Col)
    (h : get_data df labels thresh ctd = Except.ok (X, y)) :
    ∀ c ∈ X.cols, ∃ c0 ∈ survCols df labels thresh ctd,
      c = encodeIfNeeded (filterCol (keepOf df labels thresh ctd) c0) ∧
      ((c0.dtype = Dtype.str ∨ c0.dtype = Dtype.bool) →
        c.dtype = Dtype.int ∧
        c.cells = (filterCol (keepOf df labels thresh ctd) c0).cells.map
          (Option.map (fun v => Value.int
            ((filterCol (keepOf df labels thresh ctd) c0).cells.reduceOption.dedup.countP
              (fun w => vlt w v))))) := by
  obtain ⟨y0, hf, hd, hX, hY⟩ := (get_data_ok_iff df labels thresh ctd X y).mp h
  subst hX
  intro c hc
  obtain ⟨c0, hc0m, hc0⟩ := List.mem_map.mp hc
  refine ⟨c0, hc0m, hc0.symm, ?_⟩
  intro hdt
  have henc : encodeIfNeeded (filterCol (keepOf df labels thresh ctd) c0)
      = fitTransformCol (filterCol (keepOf df labels thresh ctd) c0) := by
    unfold encodeIfNeeded
    rw [if_pos]
    exact hdt
  constructor
  · rw [← hc0, henc]
    rfl
  · rw [← hc0, henc]
    unfold fitTransformCol
    refine List.map_congr_left (fun o ho => ?_)
    cases o with
    | none => rfl
    | some v =>
      have hv : v ∈ (filterCol (keepOf df labels thresh ctd) c0).cells.reduceOption :=
        List.reduceOption_mem_iff.mpr ho
      rw [Option.map_some', Option.map_some', idxIn_classesOf _ v hv]

/-- The boolean feature column of the C10 example. -/
def exS : Col :=
  { name := "S", dtype := Dtype.bool,
    cells := [some (Value.bool true), some (Value.bool false), some (Value.bool true)] }

/-- The C10 example table: one boolean feature and an integer label. -/
def exDf10 : Table :=
  { nrows := 3,
    cols := [exS, { name := "L", dtype := Dtype.int,
                    cells := [some (Value.int 0), some (Value.int 1), some (Value.int 0)] }] }

/-- The feature table `get_data` produces from `exDf10`: the boolean column
encoded as the codes `[1, 0, 1]` with `False` below `True`. -/
def exX10 : Table :=
  { nrows := 3,
    cols := [{ name := "S", dtype := Dtype.int,
               cells := [some (Value.int 1), some (Value.int 0), some (Value.int 1)] }] }

/-- The label column `get_data` produces from `exDf10`. -/
def exY10 : Col :=
  { name := "L", dtype := Dtype.int,
    cells := [some (Value.int 0), some (Value.int 1), some (Value.int 0)] }

/-- The encoded boolean column of the C10 example, as returned inside `exX10`. -/
def exSenc : Col :=
  { name := "S", dtype := Dtype.int,
    cells := [some (Value.int 1), some (Value.int 0), some (Value.int 1)] }

/-- Witness for C10 at a concrete boolean column. -/
theorem get_data_label_encoding_w :
    ∃ c0 ∈ survCols exDf10 "L" (4/5) none,
      exSenc = encodeIfNeeded (filterCol (keepOf exDf10 "L" (4/5) none) c0) ∧
      ((c0.dtype = Dtype.str ∨ c0.dtype = Dtype.bool) →
        exSenc.dtype = Dtype.int ∧
        exSenc.cells = (filterCol (keepOf exDf10 "L" (4/5) none) c0).cells.map
          (Option.map (fun v => Value.int
            ((filterCol (keepOf exDf10 "L" (4/5) none) c0).cells.reduceOption.dedup.countP
              (fun w => vlt w v))))) :=
  get_data_label_encoding exDf10 "L" (4/5) none exX10 exY10 (by with_unfolding_all rfl)
    exSenc (by with_unfolding_all decide)
